import Mathlib

/-!
Verification development for the loan-decision dashboard
(`app.py` and `dash_functions.py`).

The numeric core of the program (probability averaging, SHAP aggregation,
waterfall construction, histogram-bin lookup) is embedded shallowly:
floating-point arrays become lists of rationals, fallible operations return
`Option`, and each definition follows the corresponding Python function
line by line.
-/

namespace DS7

/-! ## Decision engine (`dash_functions.predict_decision`, lines 30-63)

A classifier is represented by its `predict_proba` method on a single row:
it returns the two-class probability pair `(P(class 0), P(class 1))`,
class 1 being denial. -/

structure Classifier where
  predict_proba : List ℚ → ℚ × ℚ

/-- The accumulation loop of `predict_decision` (lines 51-55):
`decision_vector` starts at `[[0,0]]` and each model's two-class
probability vector is added elementwise. -/
def decisionVectorSum (models : List Classifier) (cust_array : List ℚ) : ℚ × ℚ :=
  ((models.map (fun clf => (clf.predict_proba cust_array).1)).sum,
   (models.map (fun clf => (clf.predict_proba cust_array).2)).sum)

/-- `predict_decision` (lines 48-63): average the summed probability vector
over the ensemble size, take the denial-class probability as the risk, and
grant iff the risk is strictly below the threshold.  With an empty ensemble
the numpy division `decision_vector /= 0` does not produce a number
(NaN); that case is `none`. -/
def predict_decision (models : List Classifier) (cust_array : List ℚ) (thres : ℚ) :
    Option (ℚ × Bool) :=
  if models.isEmpty then none
  else
    let n_models : ℚ := models.length
    let prob_deny := (decisionVectorSum models cust_array).2 / n_models
    some (prob_deny, decide (prob_deny < thres))

/-- `load_models` (lines 19-27): deserializes the classifier-list artifact and
returns it unchanged; the function performs no validation of the ensemble
(in particular no emptiness check).  The file I/O itself is abstracted:
the argument is the artifact's deserialized contents. -/
def load_models (artifact : List Classifier) : List Classifier := artifact

/-- A concrete classifier whose `predict_proba` is the constant pair
`(7/10, 3/10)`; used to instantiate theorems with hypotheses. -/
def constClf : Classifier := ⟨fun _ => (7/10, 3/10)⟩

/-- A second concrete classifier, constantly `(9/10, 1/10)`. -/
def constClf2 : Classifier := ⟨fun _ => (9/10, 1/10)⟩

/-- C1: whenever `predict_decision` returns a result, the decision is `true`
iff the risk is strictly below the threshold; at `risk = thres` the loan is
denied. -/
theorem predict_decision_grant_iff (models : List Classifier) (cust_array : List ℚ)
    (thres risk : ℚ) (b : Bool)
    (h : predict_decision models cust_array thres = some (risk, b)) :
    (b = true ↔ risk < thres) ∧ (risk = thres → b = false) := by
  unfold predict_decision at h
  by_cases hm : models.isEmpty
  · rw [if_pos hm] at h
    exact absurd h (by simp)
  · rw [if_neg hm] at h
    have h' := Option.some.inj h
    have hr : (decisionVectorSum models cust_array).2 / (models.length : ℚ) = risk :=
      congrArg Prod.fst h'
    have hb : decide ((decisionVectorSum models cust_array).2 / (models.length : ℚ) < thres) = b :=
      congrArg Prod.snd h'
    subst hr
    subst hb
    refine ⟨by simp, ?_⟩
    intro he
    rw [he]
    simp

/-- Witness for C1 at a concrete input: a single constant classifier with
denial probability `3/10` and threshold `3/10` is denied. -/
theorem predict_decision_grant_iff_witness :
    ((false = true ↔ (3/10 : ℚ) < 3/10) ∧ ((3/10 : ℚ) = 3/10 → false = false)) :=
  predict_decision_grant_iff [constClf] [] (3/10) (3/10) false (by
    norm_num [predict_decision, decisionVectorSum, constClf])

/-- C2: for a nonempty ensemble whose probability outputs lie componentwise
in `[0,1]`, `predict_decision` returns a risk equal to the unweighted mean
of the denial-class probabilities, and that risk lies in `[0,1]`. -/
theorem predict_decision_risk_is_mean_in_unit (models : List Classifier)
    (cust_array : List ℚ) (thres : ℚ) (hk : models ≠ [])
    (hp : ∀ clf ∈ models, 0 ≤ (clf.predict_proba cust_array).2 ∧
      (clf.predict_proba cust_array).2 ≤ 1) :
    ∃ risk b, predict_decision models cust_array thres = some (risk, b) ∧
      risk = (models.map (fun clf => (clf.predict_proba cust_array).2)).sum
          / (models.length : ℚ) ∧
      0 ≤ risk ∧ risk ≤ 1 := by
  have hm : models.isEmpty = false := by
    cases models with
    | nil => exact absurd rfl hk
    | cons a l => rfl
  have hlen0 : 0 < models.length := List.length_pos.mpr hk
  have hlen : (0 : ℚ) < (models.length : ℚ) := by exact_mod_cast hlen0
  refine ⟨(models.map (fun clf => (clf.predict_proba cust_array).2)).sum / (models.length : ℚ),
    decide ((models.map (fun clf => (clf.predict_proba cust_array).2)).sum
      / (models.length : ℚ) < thres), ?_, rfl, ?_, ?_⟩
  · simp [predict_decision, hm, decisionVectorSum]
  · apply div_nonneg _ hlen.le
    apply List.sum_nonneg
    intro x hx
    obtain ⟨clf, hclf, rfl⟩ := List.mem_map.mp hx
    exact (hp clf hclf).1
  · rw [div_le_one hlen]
    have := List.sum_le_card_nsmul
      (models.map (fun clf => (clf.predict_proba cust_array).2)) 1
      (by
        intro x hx
        obtain ⟨clf, hclf, rfl⟩ := List.mem_map.mp hx
        exact (hp clf hclf).2)
    simpa using this

/-- Witness for C2 at a concrete input: the two constant classifiers above
give risk `(3/10 + 1/10)/2 = 1/5`, which lies in `[0,1]`. -/
theorem predict_decision_risk_is_mean_in_unit_witness :
    ∃ risk b, predict_decision [constClf, constClf2] [] (3/10) = some (risk, b) ∧
      risk = ([constClf, constClf2].map
          (fun clf => (clf.predict_proba []).2)).sum / (([constClf, constClf2].length : ℕ) : ℚ) ∧
      0 ≤ risk ∧ risk ≤ 1 :=
  predict_decision_risk_is_mean_in_unit [constClf, constClf2] [] (3/10)
    (by simp)
    (by
      intro clf hclf
      simp [constClf, constClf2] at hclf
      rcases hclf with h | h <;> subst h <;> constructor <;> norm_num [constClf, constClf2])

/-! ## Attribution aggregator (`dash_functions.shap_explain`, lines 112-141)

An explainer is represented by its `shap_values` method on a single row
(the per-feature contribution vector) and its scalar `expected_value`. -/

structure Explainer where
  shap_values : List ℚ → List ℚ
  expected_value : ℚ

/-- `shap_explain` (lines 130-141): starting from a zero vector of the
feature count's length and a zero baseline, each explainer's contribution
vector divided by the ensemble size is added elementwise to the
accumulator, and each expected value divided by the ensemble size is added
to the baseline. -/
def shap_explain (explainers : List Explainer) (customer_values : List ℚ) :
    List ℚ × ℚ :=
  let n_expl : ℚ := explainers.length
  (explainers.foldl
      (fun shap_vals e =>
        List.zipWith (· + ·) shap_vals
          ((e.shap_values customer_values).map (fun v => v / n_expl)))
      (List.replicate customer_values.length 0),
   explainers.foldl (fun base_value e => base_value + e.expected_value / n_expl) 0)

lemma list_sum_map_div {α : Type} (l : List α) (f : α → ℚ) (c : ℚ) :
    (l.map (fun a => f a / c)).sum = (l.map f).sum / c := by
  induction l with
  | nil => simp
  | cons a t ih => simp [ih, add_div]

lemma foldl_add_div (l : List Explainer) (c : ℚ) :
    ∀ a : ℚ, l.foldl (fun b e => b + e.expected_value / c) a
      = a + (l.map (fun e => e.expected_value / c)).sum := by
  induction l with
  | nil => intro a; simp
  | cons e t ih => intro a; simp [ih, add_assoc]

lemma zipWith_add_getD (a b : List ℚ) (j : ℕ) (hb : b.length = a.length)
    (hj : j < a.length) :
    (List.zipWith (· + ·) a b).getD j 0 = a.getD j 0 + b.getD j 0 := by
  have hz : j < (List.zipWith (· + ·) a b).length := by simp [hb, hj]
  rw [List.getD_eq_getElem _ _ hz, List.getElem_zipWith,
    List.getD_eq_getElem _ _ hj, List.getD_eq_getElem _ _ (hb ▸ hj)]

/-- Core lemma about the accumulation loop of `shap_explain`: when every
vector added has the accumulator's length, the result keeps that length
and each entry accumulates the sum of the corresponding entries. -/
lemma foldl_zipWith_add (g : Explainer → List ℚ) :
    ∀ (l : List Explainer) (acc : List ℚ), (∀ e ∈ l, (g e).length = acc.length) →
      (l.foldl (fun sv e => List.zipWith (· + ·) sv (g e)) acc).length = acc.length ∧
      ∀ j, j < acc.length →
        (l.foldl (fun sv e => List.zipWith (· + ·) sv (g e)) acc).getD j 0
          = acc.getD j 0 + (l.map (fun e => (g e).getD j 0)).sum := by
  intro l
  induction l with
  | nil => intro acc _; exact ⟨rfl, by intro j _; simp⟩
  | cons e t ih =>
    intro acc hlen
    have he : (g e).length = acc.length := hlen e (List.mem_cons_self e t)
    have hacc' : (List.zipWith (· + ·) acc (g e)).length = acc.length := by
      simp [he]
    have ht : ∀ e' ∈ t, (g e').length = (List.zipWith (· + ·) acc (g e)).length := by
      intro e' he'
      rw [hacc']
      exact hlen e' (List.mem_cons_of_mem e he')
    obtain ⟨ih_len, ih_get⟩ := ih (List.zipWith (· + ·) acc (g e)) ht
    constructor
    · simpa [hacc'] using ih_len
    · intro j hj
      have hj' : j < (List.zipWith (· + ·) acc (g e)).length := by rw [hacc']; exact hj
      simp only [List.foldl_cons]
      rw [ih_get j hj', zipWith_add_getD acc (g e) j he hj]
      simp [add_assoc]

/-- Concrete explainers used to instantiate theorems with hypotheses. -/
def expl1 : Explainer := ⟨fun _ => [1/2, -1/10, 0], 1/4⟩

/-- A second concrete explainer. -/
def expl2 : Explainer := ⟨fun _ => [0, 1/5, 3/10], 3/20⟩

/-- C5: for a nonempty explainer ensemble whose contribution vectors all
have the feature count's length, `shap_explain` returns a contribution
vector of that length whose entries are the unweighted means of the
per-explainer contributions, and a baseline equal to the unweighted mean
of the expected values. -/
theorem shap_explain_is_mean (explainers : List Explainer) (x : List ℚ)
    (hne : explainers ≠ [])
    (hlen : ∀ e ∈ explainers, (e.shap_values x).length = x.length) :
    (shap_explain explainers x).1.length = x.length ∧
    (∀ j, j < x.length → (shap_explain explainers x).1.getD j 0
        = (explainers.map (fun e => (e.shap_values x).getD j 0)).sum
          / (explainers.length : ℚ)) ∧
    (shap_explain explainers x).2
        = (explainers.map (fun e => e.expected_value)).sum / (explainers.length : ℚ) := by
  have hrep : (List.replicate x.length (0 : ℚ)).length = x.length := by simp
  have hlen' : ∀ e ∈ explainers,
      ((e.shap_values x).map (fun v => v / (explainers.length : ℚ))).length
        = (List.replicate x.length (0 : ℚ)).length := by
    intro e he
    simp [hlen e he]
  obtain ⟨h1, h2⟩ := foldl_zipWith_add
    (fun e => (e.shap_values x).map (fun v => v / (explainers.length : ℚ)))
    explainers (List.replicate x.length 0) hlen'
  refine ⟨by simpa [shap_explain] using h1, ?_, ?_⟩
  · intro j hj
    have := h2 j (by simpa using hj)
    have hmap : ∀ e ∈ explainers,
        ((e.shap_values x).map (fun v => v / (explainers.length : ℚ))).getD j 0
          = (e.shap_values x).getD j 0 / (explainers.length : ℚ) := by
      intro e he
      have hje : j < (e.shap_values x).length := by rw [hlen e he]; exact hj
      rw [List.getD_eq_getElem _ _ (by simpa using hje), List.getElem_map,
        List.getD_eq_getElem _ _ hje]
    calc (shap_explain explainers x).1.getD j 0
        = (List.replicate x.length (0:ℚ)).getD j 0
          + (explainers.map (fun e =>
              ((e.shap_values x).map (fun v => v / (explainers.length : ℚ))).getD j 0)).sum := by
          simpa [shap_explain] using this
      _ = (explainers.map (fun e =>
              (e.shap_values x).getD j 0 / (explainers.length : ℚ))).sum := by
          rw [List.map_congr_left hmap]
          simp
      _ = (explainers.map (fun e => (e.shap_values x).getD j 0)).sum
            / (explainers.length : ℚ) :=
          list_sum_map_div explainers _ _
  · show explainers.foldl (fun b e => b + e.expected_value / (explainers.length : ℚ)) 0 = _
    rw [foldl_add_div, list_sum_map_div]
    simp

/-- Witness for C5 at a concrete input: two explainers over three features. -/
theorem shap_explain_is_mean_witness :
    (shap_explain [expl1, expl2] [0, 0, 0]).1.length = [(0:ℚ), 0, 0].length ∧
    (∀ j, j < [(0:ℚ), 0, 0].length → (shap_explain [expl1, expl2] [0, 0, 0]).1.getD j 0
        = ([expl1, expl2].map (fun e => (e.shap_values [0, 0, 0]).getD j 0)).sum
          / (([expl1, expl2].length : ℕ) : ℚ)) ∧
    (shap_explain [expl1, expl2] [0, 0, 0]).2
        = ([expl1, expl2].map (fun e => e.expected_value)).sum
          / (([expl1, expl2].length : ℕ) : ℚ) :=
  shap_explain_is_mean [expl1, expl2] [0, 0, 0]
    (by simp)
    (by
      intro e he
      simp only [List.mem_cons, List.mem_singleton, List.not_mem_nil, or_false] at he
      rcases he with h | h <;> subst h <;> rfl)

lemma zipWith_add_right_comm (a b c : List ℚ) :
    List.zipWith (· + ·) (List.zipWith (· + ·) a b) c
      = List.zipWith (· + ·) (List.zipWith (· + ·) a c) b := by
  induction a generalizing b c with
  | nil => simp
  | cons x a ih =>
    cases b with
    | nil => simp
    | cons y b =>
      cases c with
      | nil => simp
      | cons z c => simp [ih, add_right_comm]

/-- C8: permuting the classifier ensemble leaves `predict_decision`
unchanged, and permuting the explainer ensemble leaves `shap_explain`
unchanged (exactly, over exact rational arithmetic). -/
theorem aggregation_perm_invariant (models models' : List Classifier)
    (explainers explainers' : List Explainer) (x : List ℚ) (thres : ℚ)
    (hm : models.Perm models') (he : explainers.Perm explainers') :
    predict_decision models x thres = predict_decision models' x thres ∧
    shap_explain explainers x = shap_explain explainers' x := by
  have hml : models.length = models'.length := hm.length_eq
  have hel : explainers.length = explainers'.length := he.length_eq
  constructor
  · have hsum : (models.map (fun clf => (clf.predict_proba x).2)).sum
        = (models'.map (fun clf => (clf.predict_proba x).2)).sum :=
      (hm.map _).sum_eq
    have hemp : models.isEmpty = models'.isEmpty := by
      cases models <;> cases models' <;> simp_all
    unfold predict_decision decisionVectorSum
    rw [hemp, hsum, hml]
  · simp only [shap_explain]
    rw [← hel]
    congr 1
    · exact he.foldl_eq'
        (fun e1 _ e2 _ sv => zipWith_add_right_comm sv _ _)
        (List.replicate x.length 0)
    · exact he.foldl_eq'
        (fun e1 _ e2 _ b => add_right_comm b
          (e1.expected_value / (explainers.length : ℚ))
          (e2.expected_value / (explainers.length : ℚ))) 0

/-- Witness for C8 at a concrete input: swapping the two classifiers and
the two explainers above leaves both aggregates unchanged. -/
theorem aggregation_perm_invariant_witness :
    predict_decision [constClf, constClf2] [0, 0, 0] (3/10)
        = predict_decision [constClf2, constClf] [0, 0, 0] (3/10) ∧
      shap_explain [expl1, expl2] [0, 0, 0] = shap_explain [expl2, expl1] [0, 0, 0] :=
  aggregation_perm_invariant [constClf, constClf2] [constClf2, constClf]
    [expl1, expl2] [expl2, expl1] [0, 0, 0] (3/10)
    (List.Perm.swap constClf2 constClf [])
    (List.Perm.swap expl2 expl1 [])

/-! ## Waterfall builder (`dash_functions.plot_waterfall`, lines 223-290)

The data pipeline of the figure: the contribution vector is sorted
ascending by absolute value, the rows outside the top `n_top` are folded
into an aggregated "others" bar whose label reports their count, and the
figure annotates the base value, the final cumulative position and a
threshold line at 0. -/

/-- The order pandas sorts by at line 250: ascending absolute value. -/
def absLE (a b : ℚ) : Prop := |a| ≤ |b|

instance : DecidableRel absLE := fun a b => inferInstanceAs (Decidable (|a| ≤ |b|))

instance : IsTotal ℚ absLE := ⟨fun a b => le_total |a| |b|⟩

instance : IsTrans ℚ absLE := ⟨fun _ _ _ hab hbc => le_trans hab hbc⟩

/-- Lines 247-250: `df_waterfall` sorted ascending on the `abs` column. -/
def sortedByAbs (shaps : List ℚ) : List ℚ := List.insertionSort absLE shaps

/-- Line 253: `df_top = df_waterfall.tail(n_top)`, the last `n_top` rows. -/
def waterfall_top (shaps : List ℚ) (n_top : ℕ) : List ℚ :=
  (sortedByAbs shaps).drop ((sortedByAbs shaps).length - n_top)

/-- Lines 254-255: the rows folded into the "others" bucket,
`df_waterfall.iloc[:-n_top]`; Python's `[:-0]` is the empty slice, hence
the `n_top = 0` case. -/
def waterfall_others (shaps : List ℚ) (n_top : ℕ) : List ℚ :=
  if n_top = 0 then []
  else (sortedByAbs shaps).take ((sortedByAbs shaps).length - n_top)

/-- Line 255: the cardinality reported in the "others" row label,
`len(df_waterfall.iloc[:-n_top])`. -/
def waterfall_others_count (shaps : List ℚ) (n_top : ℕ) : ℕ :=
  (waterfall_others shaps n_top).length

/-- Lines 254-264: the bar values passed to `go.Waterfall`: the summed
"others" row first, then the top rows. -/
def waterfall_bars (shaps : List ℚ) (n_top : ℕ) : List ℚ :=
  (waterfall_others shaps n_top).sum :: waterfall_top shaps n_top

/-- Line 281: `final_value = df_waterfall['values'].sum() + base_value`. -/
def waterfall_final (base_value : ℚ) (shaps : List ℚ) (n_top : ℕ) : ℚ :=
  (waterfall_bars shaps n_top).sum + base_value

/-- Line 287: the decision-threshold line is drawn at `x = 0`. -/
def waterfall_threshold_pos : ℚ := 0

lemma sortedByAbs_perm (shaps : List ℚ) : (sortedByAbs shaps).Perm shaps :=
  List.perm_insertionSort absLE shaps

lemma sortedByAbs_sorted (shaps : List ℚ) : List.Sorted absLE (sortedByAbs shaps) :=
  List.sorted_insertionSort absLE shaps

lemma waterfall_split (shaps : List ℚ) (n_top : ℕ) (h : 1 ≤ n_top) :
    (waterfall_others shaps n_top).sum + (waterfall_top shaps n_top).sum
      = shaps.sum := by
  have hn : n_top ≠ 0 := by omega
  unfold waterfall_others waterfall_top
  rw [if_neg hn]
  rw [← List.sum_append, List.take_append_drop]
  exact (sortedByAbs_perm shaps).sum_eq

/-- C3: for `n_top ≥ 1`, the "others" bucket's value is the total
contribution sum minus the sum of the top `n_top`
largest-by-absolute-value contributions, its reported cardinality is the
truncated difference `F - n_top` (so `max (F - n_top) 0` over the
integers), every folded-in row has absolute value at most that of every
top row, and when `n_top ≥ F` the bucket is empty. -/
theorem waterfall_others_spec (shaps : List ℚ) (n_top : ℕ) (h : 1 ≤ n_top) :
    (waterfall_others shaps n_top).sum
        = shaps.sum - (waterfall_top shaps n_top).sum ∧
    waterfall_others_count shaps n_top = shaps.length - n_top ∧
    (∀ a ∈ waterfall_others shaps n_top, ∀ b ∈ waterfall_top shaps n_top, |a| ≤ |b|) ∧
    (shaps.length ≤ n_top →
      waterfall_others shaps n_top = [] ∧ waterfall_others_count shaps n_top = 0) := by
  have hn : n_top ≠ 0 := by omega
  have hlen : (sortedByAbs shaps).length = shaps.length :=
    (sortedByAbs_perm shaps).length_eq
  refine ⟨?_, ?_, ?_, ?_⟩
  · have := waterfall_split shaps n_top h
    linarith
  · unfold waterfall_others_count waterfall_others
    rw [if_neg hn, List.length_take, hlen]
    omega
  · intro a ha b hb
    have hsorted := sortedByAbs_sorted shaps
    rw [← List.take_append_drop ((sortedByAbs shaps).length - n_top)
      (sortedByAbs shaps)] at hsorted
    have hpair := (List.pairwise_append.mp hsorted).2.2
    unfold waterfall_others at ha
    rw [if_neg hn] at ha
    exact hpair a ha b hb
  · intro hF
    have : (sortedByAbs shaps).length - n_top = 0 := by omega
    unfold waterfall_others_count waterfall_others
    rw [if_neg hn, this, List.take_zero]
    exact ⟨rfl, rfl⟩

/-- Witness for C3 at a concrete input: `shaps = [1, -2, 1/2]`, `n_top = 2`. -/
theorem waterfall_others_spec_witness :
    (waterfall_others [1, -2, 1/2] 2).sum
        = [(1:ℚ), -2, 1/2].sum - (waterfall_top [1, -2, 1/2] 2).sum ∧
    waterfall_others_count [1, -2, 1/2] 2 = [(1:ℚ), -2, 1/2].length - 2 ∧
    (∀ a ∈ waterfall_others [1, -2, 1/2] 2, ∀ b ∈ waterfall_top [1, -2, 1/2] 2, |a| ≤ |b|) ∧
    ([(1:ℚ), -2, 1/2].length ≤ 2 →
      waterfall_others [1, -2, 1/2] 2 = [] ∧ waterfall_others_count [1, -2, 1/2] 2 = 0) :=
  waterfall_others_spec [1, -2, 1/2] 2 (by norm_num)

/-- C4 counterexample: at `n_top = 0` (Python's `[:-0]` is the empty
slice and `tail(0)` is empty) every contribution is dropped, so the final
position drawn is the bare baseline rather than baseline plus the total
contribution sum. -/
theorem waterfall_final_counterexample :
    waterfall_final 0 [1] 0 ≠ 0 + [(1:ℚ)].sum := by
  norm_num [waterfall_final, waterfall_bars, waterfall_others, waterfall_top]

/-- C4 (amended to `n_top ≥ 1`): the bar sequence is the aggregated
"others" bar followed by the top bars in ascending order of absolute
contribution, the top sequence has length `min n_top F`, the final
cumulative position is baseline plus the sum of the full contribution
vector, and the threshold line is drawn at 0. -/
theorem waterfall_layout (base_value : ℚ) (shaps : List ℚ) (n_top : ℕ)
    (h : 1 ≤ n_top) :
    waterfall_bars shaps n_top
        = (waterfall_others shaps n_top).sum :: waterfall_top shaps n_top ∧
    List.Sorted (fun a b : ℚ => |a| ≤ |b|) (waterfall_top shaps n_top) ∧
    (waterfall_top shaps n_top).length = min n_top shaps.length ∧
    waterfall_final base_value shaps n_top = base_value + shaps.sum ∧
    waterfall_threshold_pos = 0 := by
  have hlen : (sortedByAbs shaps).length = shaps.length :=
    (sortedByAbs_perm shaps).length_eq
  refine ⟨rfl, ?_, ?_, ?_, rfl⟩
  · exact (sortedByAbs_sorted shaps).sublist
      (List.drop_sublist _ _)
  · unfold waterfall_top
    rw [List.length_drop, hlen]
    omega
  · unfold waterfall_final waterfall_bars
    rw [List.sum_cons, waterfall_split shaps n_top h]
    ring

/-- Witness for C4's amended statement at a concrete input. -/
theorem waterfall_layout_witness :
    waterfall_bars [1, -2, 1/2] 2
        = (waterfall_others [1, -2, 1/2] 2).sum :: waterfall_top [1, -2, 1/2] 2 ∧
    List.Sorted (fun a b : ℚ => |a| ≤ |b|) (waterfall_top [1, -2, 1/2] 2) ∧
    (waterfall_top [1, -2, 1/2] 2).length = min 2 [(1:ℚ), -2, 1/2].length ∧
    waterfall_final (1/4) [1, -2, 1/2] 2 = 1/4 + [(1:ℚ), -2, 1/2].sum ∧
    waterfall_threshold_pos = 0 :=
  waterfall_layout (1/4) [1, -2, 1/2] 2 (by norm_num)

/-! ## Ensemble load validation (`dash_functions.load_models`, lines 19-27) -/

/-- C6 (code behaviour at the failing input): `load_models` returns an
empty deserialized ensemble unchanged — there is no load-time rejection —
and `predict_decision` on the empty ensemble reaches the division by the
ensemble size 0 (numpy NaN, modelled as `none`). -/
theorem load_models_accepts_empty :
    load_models [] = [] ∧ predict_decision [] [] (3/10) = none :=
  ⟨rfl, rfl⟩

/-! ## Artifact-loading behaviour of the callbacks (`app.py`)

Each handler's disk reads are recorded as the list of artifacts it loads,
transcribed from the handler bodies. -/

/-- The artifacts the program reads from disk. -/
inductive Artifact
  | criteriaDescriptions
  | customerData
  | models
  | panelHist
  | shapValues
  | meanAbsShaps
  | shapExplainer (i : ℕ)
deriving DecidableEq

/-- Loads performed once at `app.py` module top level (lines 38-39):
the criteria descriptions and the customer table. -/
def startup_loads : List Artifact :=
  [Artifact.criteriaDescriptions, Artifact.customerData]

/-- `update_customer` (app.py lines 217-241) calls `load_models`
(line 224) on every invocation. -/
def update_customer_loads : List Artifact := [Artifact.models]

/-- `update_explaination` (lines 253-259) calls `shap_explain`, which
loads explainer `i` for `i = 0..4` (dash_functions lines 135-136). -/
def update_explaination_loads : List Artifact :=
  (List.range 5).map Artifact.shapExplainer

/-- `update_panel` (lines 273-299) calls `load_panel` (line 280). -/
def update_panel_loads : List Artifact := [Artifact.panelHist]

/-- `update_water` (lines 313-331) performs no artifact loading. -/
def update_water_loads : List Artifact := []

/-- `update_tables` (lines 345-359) calls `generate_top_tables`, which
loads the mean-absolute-shap artifact (dash_functions lines 350-351). -/
def update_tables_loads : List Artifact := [Artifact.meanAbsShaps]

/-- `update_description` (lines 377-411) calls `load_shap_values`
(app.py line 388). -/
def update_description_loads : List Artifact := [Artifact.shapValues]

/-- C9 counterexample: the customer-selection handler does perform
artifact loading on every request — it re-loads the model ensemble. -/
theorem update_customer_loads_nonempty : update_customer_loads ≠ [] := by
  simp [update_customer_loads]

/-- C9 (amended): only the criteria and customer tables are loaded at
startup; the model ensemble, SHAP explainers, panel histogram,
mean-absolute-shap artifact and shap-values table are re-loaded inside
the per-request handlers, with only the waterfall handler performing no
loading. -/
theorem per_request_artifact_loading :
    startup_loads = [Artifact.criteriaDescriptions, Artifact.customerData] ∧
    Artifact.models ∈ update_customer_loads ∧
    Artifact.shapExplainer 0 ∈ update_explaination_loads ∧
    Artifact.panelHist ∈ update_panel_loads ∧
    Artifact.meanAbsShaps ∈ update_tables_loads ∧
    Artifact.shapValues ∈ update_description_loads ∧
    update_water_loads = [] := by
  refine ⟨rfl, ?_, ?_, ?_, ?_, ?_, rfl⟩ <;> decide

/-! ## Histogram-bin lookup of `update_panel` (`app.py`, lines 273-299) -/

/-- app.py line 231: the estimated risk displayed by `update_customer`,
the string `'{:.1%}'.format(risk)`; the embedding keeps the numeric value
the string denotes, in percent (the percentage rounded to one decimal). -/
def displayed_risk_pct (risk : ℚ) : ℚ := (round (risk * 1000) : ℤ) / 10

/-- app.py line 283: `np.floor(float(customer_risk[:-1]))/100` — the
displayed percent string parsed back, floored to a whole percent, then
divided by 100. -/
def cust_bin (risk : ℚ) : ℚ := (⌊displayed_risk_pct risk⌋ : ℚ) / 100

/-- app.py line 284: `panel_hist[1].tolist().index(cust_bin)` searches the
bin edges for `cust_bin` by exact equality; `list.index` raises
`ValueError` when no edge matches, modelled as `none`. -/
def panel_bin_index (bin_edges : List ℚ) (risk : ℚ) : Option ℕ :=
  bin_edges.findIdx? (fun edge => decide (edge = cust_bin risk))

/-- C10: the highlighted bin is derived from the formatted risk string —
floored to a whole percent and divided by 100 — and is looked up among the
bin edges by exact equality; the lookup errors precisely when no bin edge
equals that value (no nearest-bin fallback). -/
theorem update_panel_bin_exact_match (bin_edges : List ℚ) (risk : ℚ) :
    cust_bin risk = (⌊displayed_risk_pct risk⌋ : ℚ) / 100 ∧
    (panel_bin_index bin_edges risk = none ↔ cust_bin risk ∉ bin_edges) := by
  refine ⟨rfl, ?_⟩
  unfold panel_bin_index
  rw [List.findIdx?_eq_none_iff]
  constructor
  · intro h hmem
    have := h _ hmem
    simp at this
  · intro h edge hedge
    simp only [decide_eq_false_iff_not]
    intro he
    exact h (he ▸ hedge)

end DS7
